import Mathlib

/-!
Verification of the streak / seal-classification / rating engine of the
stock-analyzer repository, via a shallow embedding of the relevant Python
functions into Lean.

Conventions of the embedding:
* booleans map to `Bool`, the `{'rating', 'description'}` dicts returned by
  the rating functions map to the structure `RatingResult`;
* prices and percentage changes (Python floats) are embedded as rationals
  `ℚ`; the fixed comparison tolerances (`0.01`, `0.5`, `9.8`, `1.1`) become
  the exact rationals `1/100`, `1/2`, `98/10`, `11/10`;
* per-day outcomes of the limit-pool fetch (`ak.stock_zt_pool_em`) are
  embedded as `DayStatus`: the symbol was in the pool (`sealed`), a
  non-empty frame was returned without the symbol (`notSealed`), an empty /
  `None` frame was returned (`noData`), or the call raised (`fetchErr`);
* intraday change-event timestamps (parsed `HH:MM:SS` strings) are embedded
  as natural numbers (seconds); rows of the change-event frames are
  represented by their parsed time lists.
-/

/-- Result dict `{'rating': ..., 'description': ...}` of the rating
functions. -/
structure RatingResult where
  rating : String
  description : String
deriving DecidableEq, Repr

/-- `stock_rating_advisor.generate_rating`: the seven-boolean if/elif
chain, translated branch by branch. -/
def generate_rating (is_limit_up has_open_limit has_big_sell
    is_in_broken_pool is_in_strong_pool has_re_limit
    is_one_word_limit : Bool) : RatingResult :=
  if has_open_limit && !has_re_limit then
    ⟨"D-", "炸板后未重新封板，走势疲弱"⟩
  else if is_one_word_limit then
    if !has_big_sell && !is_in_broken_pool then
      ⟨"A++", "一字板涨停，封板极强，无漏单"⟩
    else
      ⟨"A+", "一字板涨停，但需关注异动"⟩
  else if is_limit_up && !has_open_limit && !is_in_broken_pool &&
      !has_big_sell && is_in_strong_pool then
    ⟨"A+", "强势涨停，封板稳固，无漏单，属于强势股"⟩
  else if is_limit_up && !has_open_limit && !is_in_broken_pool &&
      !has_big_sell then
    ⟨"A", "强势涨停，封板稳固，无漏单"⟩
  else if is_limit_up && has_re_limit && !has_big_sell &&
      is_in_strong_pool then
    ⟨"A-", "炸板后重新封板，无漏单，属于强势股"⟩
  else if is_limit_up && has_re_limit && !has_big_sell then
    ⟨"B+", "炸板后重新封板，无漏单"⟩
  else if is_limit_up && is_in_strong_pool then
    ⟨"B", "涨停且为强势股，但需关注异动"⟩
  else if is_limit_up then
    ⟨"B-", "涨停，但需关注异动情况"⟩
  else if is_in_strong_pool && !is_in_broken_pool then
    ⟨"C+", "非涨停，但属于强势股"⟩
  else if is_in_strong_pool then
    ⟨"C", "属于强势股，但有炸板风险"⟩
  else if has_big_sell then
    ⟨"E", "存在大笔卖出（漏单）"⟩
  else
    ⟨"F", "无显著异动"⟩

/-- `StockMonitorAnalysis._generate_rating`: the six-boolean duplicate of
the chain in `stock_monitor_analysis.py`, translated independently. -/
def _generate_rating (is_limit_up has_open_limit has_big_sell
    is_in_broken_pool is_in_strong_pool has_re_limit : Bool) : RatingResult :=
  if has_open_limit && !has_re_limit then
    ⟨"D-", "炸板后未重新封板，走势疲弱"⟩
  else if is_limit_up && !has_open_limit && !is_in_broken_pool &&
      !has_big_sell && is_in_strong_pool then
    ⟨"A+", "强势涨停，封板稳固，无漏单，属于强势股"⟩
  else if is_limit_up && !has_open_limit && !is_in_broken_pool &&
      !has_big_sell then
    ⟨"A", "强势涨停，封板稳固，无漏单"⟩
  else if is_limit_up && has_re_limit && !has_big_sell &&
      is_in_strong_pool then
    ⟨"A-", "炸板后重新封板，无漏单，属于强势股"⟩
  else if is_limit_up && has_re_limit && !has_big_sell then
    ⟨"B+", "炸板后重新封板，无漏单"⟩
  else if is_limit_up && is_in_strong_pool then
    ⟨"B", "涨停且为强势股，但需关注异动"⟩
  else if is_limit_up then
    ⟨"B-", "涨停，但需关注异动情况"⟩
  else if is_in_strong_pool && !is_in_broken_pool then
    ⟨"C+", "非涨停，但属于强势股"⟩
  else if is_in_strong_pool then
    ⟨"C", "属于强势股，但有炸板风险"⟩
  else if has_big_sell then
    ⟨"E", "存在大笔卖出（漏单）"⟩
  else
    ⟨"F", "无显著异动"⟩

/-- `stock_rating_advisor.generate_investment_advice`: the parallel advice
chain, translated branch by branch. -/
def generate_investment_advice (is_limit_up has_open_limit has_big_sell
    is_in_broken_pool is_in_strong_pool has_re_limit
    is_one_word_limit : Bool) : String :=
  if has_open_limit && !has_re_limit then
    "炸板后未重新封板，走势疲弱，建议回避"
  else if is_one_word_limit then
    if !has_big_sell && !is_in_broken_pool then
      "一字板涨停，封板极强，但需注意次日开板风险，谨慎参与"
    else
      "一字板涨停，但存在异动，需密切关注"
  else if is_limit_up && !has_open_limit && !is_in_broken_pool &&
      !has_big_sell && is_in_strong_pool then
    "封板质量优秀，可考虑持有或适量参与"
  else if is_limit_up && !has_open_limit && !is_in_broken_pool then
    "封板稳固，可关注次日表现"
  else if is_limit_up && has_re_limit && !has_big_sell &&
      is_in_strong_pool then
    "炸板后重新封板，显示承接有力，可谨慎关注"
  else if is_limit_up && has_re_limit && !has_big_sell then
    "炸板后重新封板，显示一定承接，但需注意风险"
  else if is_limit_up && is_in_strong_pool then
    "涨停且为强势股，但需注意异动，谨慎参与"
  else if is_limit_up then
    "涨停但需警惕异动，建议观察"
  else if is_in_strong_pool && !is_in_broken_pool then
    "非涨停但属强势股，可关注回调机会"
  else if is_in_strong_pool then
    "属于强势股，但有炸板风险"
  else if has_big_sell then
    "存在漏单，主力可能出逃，建议回避"
  else
    "无明显异动，建议继续观察"

/-- The seven boolean arguments of `generate_rating`, bundled. -/
structure RatingInput where
  is_limit_up : Bool
  has_open_limit : Bool
  has_big_sell : Bool
  is_in_broken_pool : Bool
  is_in_strong_pool : Bool
  has_re_limit : Bool
  is_one_word_limit : Bool
deriving DecidableEq

/-- `generate_rating` on a bundled input. -/
def generate_rating_on (x : RatingInput) : RatingResult :=
  generate_rating x.is_limit_up x.has_open_limit x.has_big_sell
    x.is_in_broken_pool x.is_in_strong_pool x.has_re_limit x.is_one_word_limit

/-- The ordered precedence table of `generate_rating`: one guard and one
result per branch of the chain, in source order, ending with the
catch-all `F` rule. -/
def ratingRules : List ((RatingInput → Bool) × RatingResult) :=
  [ (fun x => x.has_open_limit && !x.has_re_limit,
      ⟨"D-", "炸板后未重新封板，走势疲弱"⟩),
    (fun x => x.is_one_word_limit && (!x.has_big_sell && !x.is_in_broken_pool),
      ⟨"A++", "一字板涨停，封板极强，无漏单"⟩),
    (fun x => x.is_one_word_limit,
      ⟨"A+", "一字板涨停，但需关注异动"⟩),
    (fun x => x.is_limit_up && !x.has_open_limit && !x.is_in_broken_pool &&
        !x.has_big_sell && x.is_in_strong_pool,
      ⟨"A+", "强势涨停，封板稳固，无漏单，属于强势股"⟩),
    (fun x => x.is_limit_up && !x.has_open_limit && !x.is_in_broken_pool &&
        !x.has_big_sell,
      ⟨"A", "强势涨停，封板稳固，无漏单"⟩),
    (fun x => x.is_limit_up && x.has_re_limit && !x.has_big_sell &&
        x.is_in_strong_pool,
      ⟨"A-", "炸板后重新封板，无漏单，属于强势股"⟩),
    (fun x => x.is_limit_up && x.has_re_limit && !x.has_big_sell,
      ⟨"B+", "炸板后重新封板，无漏单"⟩),
    (fun x => x.is_limit_up && x.is_in_strong_pool,
      ⟨"B", "涨停且为强势股，但需关注异动"⟩),
    (fun x => x.is_limit_up,
      ⟨"B-", "涨停，但需关注异动情况"⟩),
    (fun x => x.is_in_strong_pool && !x.is_in_broken_pool,
      ⟨"C+", "非涨停，但属于强势股"⟩),
    (fun x => x.is_in_strong_pool,
      ⟨"C", "属于强势股，但有炸板风险"⟩),
    (fun x => x.has_big_sell,
      ⟨"E", "存在大笔卖出（漏单）"⟩),
    (fun _ => true,
      ⟨"F", "无显著异动"⟩) ]

/-- `x` matches rule `i` of `ratingRules` first: its guard holds and no
earlier guard does. -/
def firstMatch (x : RatingInput) (i : Fin ratingRules.length) : Prop :=
  (ratingRules.get i).1 x = true ∧
    ∀ j : Fin ratingRules.length, j < i → (ratingRules.get j).1 x = false

instance (x : RatingInput) (i : Fin ratingRules.length) :
    Decidable (firstMatch x i) := by
  unfold firstMatch; infer_instance

/-- `generate_investment_advice` on a bundled input. -/
def generate_investment_advice_on (x : RatingInput) : String :=
  generate_investment_advice x.is_limit_up x.has_open_limit x.has_big_sell
    x.is_in_broken_pool x.is_in_strong_pool x.has_re_limit x.is_one_word_limit

/-- Outcome of one `ak.stock_zt_pool_em(date=...)` query for a fixed
symbol: the symbol appeared in the returned pool (`sealed`), a usable
non-empty frame came back without the symbol (`notSealed`), the frame was
`None`/empty (`noData`), or the call raised (`fetchErr`). -/
inductive DayStatus
  | sealed
  | notSealed
  | noData
  | fetchErr
deriving DecidableEq, Repr

/-- Backward loop of `_get_streak_days` in `stock_monitor_analysis.py`
(today-sealed branch): per earlier day, an empty frame or a raised fetch
increments `consecutive_failures` and breaks once it exceeds 5; a day with
the symbol in the pool increments the streak and resets the counter; a
confirmed day without the symbol stops the scan. -/
def monitorBackScan : List DayStatus → Nat → Nat → Nat
  | [], streak, _ => streak
  | .sealed :: rest, streak, _ => monitorBackScan rest (streak + 1) 0
  | .notSealed :: _, streak, _ => streak
  | .noData :: rest, streak, fails =>
      if fails + 1 > 5 then streak else monitorBackScan rest streak (fails + 1)
  | .fetchErr :: rest, streak, fails =>
      if fails + 1 > 5 then streak else monitorBackScan rest streak (fails + 1)

/-- Backward loop of `calculate_streak_days` in
`stock_streak_calculator.py` (today-sealed branch): an empty frame or a
raised fetch is skipped with `continue` — this variant keeps no
consecutive-failure counter at all. -/
def calcBackScan : List DayStatus → Nat → Nat
  | [], streak => streak
  | .sealed :: rest, streak => calcBackScan rest (streak + 1)
  | .notSealed :: _, streak => streak
  | .noData :: rest, streak => calcBackScan rest streak
  | .fetchErr :: rest, streak => calcBackScan rest streak

/-- Inner loop of the today-not-sealed fallback (identical in both
sources): after a sealed day is found, keep counting earlier sealed days;
an empty frame is skipped with `continue`, while a raised fetch or a
confirmed non-sealed day breaks. -/
def fallbackInnerScan : List DayStatus → Nat → Nat
  | [], streak => streak
  | .sealed :: rest, streak => fallbackInnerScan rest (streak + 1)
  | .noData :: rest, streak => fallbackInnerScan rest streak
  | .notSealed :: _, streak => streak
  | .fetchErr :: _, streak => streak

/-- Outer loop of the today-not-sealed fallback (identical in both
sources): scan the window for the most recent day with the symbol in the
pool, skipping everything else; once found, count the run backward from
there with `fallbackInnerScan`. -/
def fallbackFindScan : List DayStatus → Nat
  | [] => 0
  | .sealed :: rest => fallbackInnerScan rest 1
  | .notSealed :: rest => fallbackFindScan rest
  | .noData :: rest => fallbackFindScan rest
  | .fetchErr :: rest => fallbackFindScan rest

/-- `StockMonitorAnalysis._get_streak_days`, backup branch, as a function
of the per-day pool outcomes (`today` is the query date, `past` lists the
calendar days walking backward from it).  The loop bound
`max_days_to_check = 30` scans at most the 29 days before the query date
in the today-sealed branch and at most 30 days (query date included) in
the fallback.  The data-fetcher streak-field shortcut at the top of the
source is external data passed through unchanged and is not part of this
computation. -/
def _get_streak_days (today : DayStatus) (past : List DayStatus) : Nat :=
  if today = .sealed then monitorBackScan (past.take 29) 1 0
  else fallbackFindScan ((today :: past).take 30)

/-- `calculate_streak_days` of `stock_streak_calculator.py`, backup
branch, same shape as `_get_streak_days` but with the counter-free
`calcBackScan` in the today-sealed branch. -/
def calculate_streak_days (today : DayStatus) (past : List DayStatus) : Nat :=
  if today = .sealed then calcBackScan (past.take 29) 1
  else fallbackFindScan ((today :: past).take 30)

/-- Every maximal run of unknown days (`noData`/`fetchErr`) in the list,
counted on top of `k` already-seen consecutive unknowns, stays within the
abort threshold 5. -/
def unknownRunsOk : List DayStatus → Nat → Bool
  | [], _ => true
  | .sealed :: rest, _ => unknownRunsOk rest 0
  | .notSealed :: rest, _ => unknownRunsOk rest 0
  | .noData :: rest, k => decide (k + 1 ≤ 5) && unknownRunsOk rest (k + 1)
  | .fetchErr :: rest, k => decide (k + 1 ≤ 5) && unknownRunsOk rest (k + 1)

/-- One row of the detailed-history frame consumed by
`StockPatternAnalyzer._get_limit_type`, with prices and percentage change
as exact rationals. -/
structure DayRow where
  open_price : ℚ
  high_price : ℚ
  low_price : ℚ
  close_price : ℚ
  pct_change : ℚ
deriving DecidableEq

/-- `StockPatternAnalyzer._is_limit_up`: the percentage change is within
0.5 of 10, or at least 9.8. -/
def _is_limit_up (row : DayRow) : Bool :=
  decide (|row.pct_change - 10| < 1/2) || decide (row.pct_change ≥ 98/10)

/-- `StockPatternAnalyzer._get_limit_type`: classify a limit-up day from
its bar alone.  `prev_close` is the source's approximation
`close_price / 1.1`, and the limit price is `prev_close * 1.1`, kept
unsimplified as in the source. -/
def _get_limit_type (row : DayRow) : String :=
  if ! _is_limit_up row then "非涨停"
  else
    let prev_close := row.close_price / (11/10)
    if |row.open_price - row.high_price| < 1/100 ∧
        |row.open_price - prev_close * (11/10)| < 1/100 then "一字板"
    else if |row.open_price - row.high_price| < 1/100 ∧
        row.low_price < row.open_price then "T字板"
    else "普通涨停"

/-- `times[-1]` on a parsed time list; only used under a nonemptiness
guard, as in the source. -/
def lastTime (l : List Nat) : Nat := l.getLast?.getD 0

/-- The reseal determination of
`StockMonitorChanges.analyze_limit_up_changes` (step 4), as a function of
the parsed 封涨停板 times, the parsed 打开涨停板 times and limit-pool
membership: with no 涨停 record there is no seal; with 涨停 records but no
炸板 records, `has_re_limit` is limit-pool membership; with both, it is
true when the last 涨停 time is strictly after the last 炸板 time, and
otherwise falls back to limit-pool membership.  (`has_open_limit` is
`!open_limit_times.isEmpty` under this representation: a 炸板 row always
carries its parsed time.) -/
def analyze_re_limit (limit_up_times open_limit_times : List Nat)
    (is_in_limit_pool : Bool) : Bool :=
  if limit_up_times.isEmpty then false
  else if open_limit_times.isEmpty then is_in_limit_pool
  else if lastTime open_limit_times < lastTime limit_up_times then true
  else is_in_limit_pool

/-- `b in a` for character lists: `needle` occurs as a contiguous
substring of the list. -/
def listPrefixEq : List Char → List Char → Bool
  | [], _ => true
  | _ :: _, [] => false
  | a :: as, b :: bs => a == b && listPrefixEq as bs

/-- Python's `needle in hay` on strings, over their character lists. -/
def listContains (needle : List Char) : List Char → Bool
  | [] => needle.isEmpty
  | c :: rest => listPrefixEq needle (c :: rest) || listContains needle rest

/-- Python `needle in hay` for `String`. -/
def strIn (needle hay : String) : Bool := listContains needle.toList hay.toList

/-- `StockNameResolver._match_pinyin_initials`: iterating a Python string
yields its characters and `word[0]` of a one-character string is that
character, so `initials` equals `stock_name` and the test is lower-cased
containment. -/
def _match_pinyin_initials (input_str stock_name : String) : Bool :=
  listContains (input_str.toList.map Char.toLower)
    (stock_name.toList.map Char.toLower)

/-- First-match association-list lookup (Python dict access; keys are
unique). -/
def lookupA {α : Type} (l : List (String × α)) (k : String) : Option α :=
  (l.find? (fun e => e.1 == k)).map (·.2)

/-- The `if (code, stock_name) not in results: results.append(...)`
accumulation of `search_by_name`, folded over the candidate pairs. -/
def dedupAppend (acc pairs : List (String × String)) : List (String × String) :=
  pairs.foldl (fun a p => if p ∈ a then a else a ++ [p]) acc

/-- State of `StockNameResolver`: the name → codes index (dict, in
insertion order) and the code → name dict. -/
structure StockNameResolver where
  name_to_codes : List (String × List String)
  stock_dict : List (String × String)

/-- Exact-match phase of `search_by_name`. -/
def sbnExact (r : StockNameResolver) (name : String) : List (String × String) :=
  match lookupA r.name_to_codes name with
  | some codes => codes.map (fun c => (c, (lookupA r.stock_dict c).getD name))
  | none => []

/-- Containment-match candidates of `search_by_name`, in dict order. -/
def sbnSub (r : StockNameResolver) (name : String) : List (String × String) :=
  r.name_to_codes.foldl
    (fun acc e =>
      if strIn name e.1 then acc ++ e.2.map (fun c => (c, e.1)) else acc) []

/-- Pinyin-initial candidates of `search_by_name`, in dict order. -/
def sbnPin (r : StockNameResolver) (name : String) : List (String × String) :=
  r.name_to_codes.foldl
    (fun acc e =>
      if _match_pinyin_initials name e.1 then acc ++ e.2.map (fun c => (c, e.1))
      else acc) []

/-- The three phases of `search_by_name` on the already-stripped name,
each gated on `len(results) < max_results`, followed by
`results[:max_results]`. -/
def sbnPhases (r : StockNameResolver) (name : String) (max_results : Nat) :
    List (String × String) :=
  let r1 := sbnExact r name
  let r2 := if r1.length < max_results then dedupAppend r1 (sbnSub r name) else r1
  let r3 :=
    if r2.length < max_results ∧ name.length ≤ 4 then
      dedupAppend r2 (sbnPin r name)
    else r2
  r3.take max_results

/-- Python `str.strip()`: drop whitespace from both ends. -/
def pyStrip (s : String) : String :=
  ⟨((s.toList.dropWhile Char.isWhitespace).reverse.dropWhile
      Char.isWhitespace).reverse⟩

/-- `StockNameResolver.search_by_name`. -/
def search_by_name (r : StockNameResolver) (rawName : String)
    (max_results : Nat) : List (String × String) :=
  let name := pyStrip rawName
  if (name == "") || r.name_to_codes.isEmpty then []
  else sbnPhases r name max_results

/-- `StockNameResolver.get_stock_code`: `search_by_name` with
`max_results = 1`, returning the first hit's code. -/
def get_stock_code (r : StockNameResolver) (name : String) : Option String :=
  match search_by_name r name 1 with
  | [] => none
  | (c, _) :: _ => some c

/-- A concrete resolver state with two distinct stocks whose display names
both contain the query 平安. -/
def pingAnResolver : StockNameResolver :=
  ⟨[("平安银行", ["000001"]), ("中国平安", ["601318"])],
   [("000001", "平安银行"), ("601318", "中国平安")]⟩

/-! ## Helper lemmas -/

theorem monitorBackScan_count (l : List DayStatus) (s k : Nat)
    (hok : unknownRunsOk l k = true) (hns : DayStatus.notSealed ∉ l) :
    monitorBackScan l s k = s + l.count .sealed := by
  induction l generalizing s k with
  | nil => simp [monitorBackScan]
  | cons d rest ih =>
    simp only [List.mem_cons, not_or] at hns
    cases d with
    | sealed =>
      simp only [unknownRunsOk] at hok
      rw [monitorBackScan, ih _ _ hok hns.2]
      simp [List.count_cons]
      omega
    | notSealed => exact absurd rfl hns.1
    | noData =>
      simp only [unknownRunsOk, Bool.and_eq_true, decide_eq_true_eq] at hok
      rw [monitorBackScan, if_neg (by omega), ih _ _ hok.2 hns.2]
      simp [List.count_cons]
    | fetchErr =>
      simp only [unknownRunsOk, Bool.and_eq_true, decide_eq_true_eq] at hok
      rw [monitorBackScan, if_neg (by omega), ih _ _ hok.2 hns.2]
      simp [List.count_cons]

theorem calcBackScan_count (l : List DayStatus) (s : Nat)
    (hns : DayStatus.notSealed ∉ l) :
    calcBackScan l s = s + l.count .sealed := by
  induction l generalizing s with
  | nil => simp [calcBackScan]
  | cons d rest ih =>
    simp only [List.mem_cons, not_or] at hns
    cases d with
    | sealed =>
      rw [calcBackScan, ih _ hns.2]
      simp [List.count_cons]
      omega
    | notSealed => exact absurd rfl hns.1
    | noData => rw [calcBackScan, ih _ hns.2]; simp [List.count_cons]
    | fetchErr => rw [calcBackScan, ih _ hns.2]; simp [List.count_cons]

theorem monitorBackScan_le (l : List DayStatus) (s k : Nat) :
    monitorBackScan l s k ≤ s + l.length := by
  induction l generalizing s k with
  | nil => simp [monitorBackScan]
  | cons d rest ih =>
    cases d with
    | sealed =>
      rw [monitorBackScan]
      simp only [List.length_cons]
      calc monitorBackScan rest (s + 1) 0 ≤ s + 1 + rest.length := ih _ _
        _ = s + (rest.length + 1) := by omega
    | notSealed => simp [monitorBackScan]
    | noData =>
      rw [monitorBackScan]
      simp only [List.length_cons]
      split
      · omega
      · calc monitorBackScan rest s (k + 1) ≤ s + rest.length := ih _ _
          _ ≤ s + (rest.length + 1) := by omega
    | fetchErr =>
      rw [monitorBackScan]
      simp only [List.length_cons]
      split
      · omega
      · calc monitorBackScan rest s (k + 1) ≤ s + rest.length := ih _ _
          _ ≤ s + (rest.length + 1) := by omega

theorem calcBackScan_le (l : List DayStatus) (s : Nat) :
    calcBackScan l s ≤ s + l.length := by
  induction l generalizing s with
  | nil => simp [calcBackScan]
  | cons d rest ih =>
    cases d <;> simp only [calcBackScan, List.length_cons]
    · calc calcBackScan rest (s + 1) ≤ s + 1 + rest.length := ih _
        _ = s + (rest.length + 1) := by omega
    · omega
    · calc calcBackScan rest s ≤ s + rest.length := ih _
        _ ≤ s + (rest.length + 1) := by omega
    · calc calcBackScan rest s ≤ s + rest.length := ih _
        _ ≤ s + (rest.length + 1) := by omega

theorem fallbackInnerScan_le (l : List DayStatus) (s : Nat) :
    fallbackInnerScan l s ≤ s + l.length := by
  induction l generalizing s with
  | nil => simp [fallbackInnerScan]
  | cons d rest ih =>
    cases d <;> simp only [fallbackInnerScan, List.length_cons]
    · calc fallbackInnerScan rest (s + 1) ≤ s + 1 + rest.length := ih _
        _ = s + (rest.length + 1) := by omega
    · omega
    · calc fallbackInnerScan rest s ≤ s + rest.length := ih _
        _ ≤ s + (rest.length + 1) := by omega
    · omega

theorem fallbackFindScan_le (l : List DayStatus) :
    fallbackFindScan l ≤ l.length := by
  induction l with
  | nil => simp [fallbackFindScan]
  | cons d rest ih =>
    cases d <;> simp only [fallbackFindScan, List.length_cons]
    · calc fallbackInnerScan rest 1 ≤ 1 + rest.length := fallbackInnerScan_le _ _
        _ = rest.length + 1 := by omega
    all_goals omega

theorem monitorBackScan_six_unknown (t : List DayStatus) (s : Nat) :
    monitorBackScan (List.replicate 6 .noData ++ t) s 0 = s := by
  simp [List.replicate, monitorBackScan]

theorem dedupAppend_eq_append (pairs acc : List (String × String)) :
    ∃ t, dedupAppend acc pairs = acc ++ t := by
  induction pairs generalizing acc with
  | nil => exact ⟨[], by simp [dedupAppend]⟩
  | cons p rest ih =>
    unfold dedupAppend at ih ⊢
    simp only [List.foldl_cons]
    by_cases hp : p ∈ acc
    · rw [if_pos hp]; exact ih acc
    · rw [if_neg hp]
      obtain ⟨t, ht⟩ := ih (acc ++ [p])
      exact ⟨[p] ++ t, by rw [ht, List.append_assoc]⟩

theorem head?_take_succ {α : Type} (l : List α) (n : Nat) :
    (l.take (n + 1)).head? = l.head? := by
  cases l <;> simp

theorem sbnPhases_head_agree (r : StockNameResolver) (name : String) :
    (sbnPhases r name 1).head? = (sbnPhases r name 10).head? := by
  unfold sbnPhases
  dsimp only
  cases hex : sbnExact r name with
  | cons a as =>
    have e1 : ¬ ((a :: as).length < 1) := by simp
    rw [if_neg e1]
    have e2 : ¬ ((a :: as).length < 1 ∧ name.length ≤ 4) := by simp
    rw [if_neg e2]
    obtain ⟨t2, ht2⟩ : ∃ t, (if (a :: as).length < 10 then
        dedupAppend (a :: as) (sbnSub r name) else a :: as) = (a :: as) ++ t := by
      split
      · exact dedupAppend_eq_append _ _
      · exact ⟨[], by simp⟩
    rw [ht2]
    obtain ⟨t3, ht3⟩ : ∃ t, (if ((a :: as) ++ t2).length < 10 ∧ name.length ≤ 4 then
        dedupAppend ((a :: as) ++ t2) (sbnPin r name) else (a :: as) ++ t2) =
        ((a :: as) ++ t2) ++ t := by
      split
      · exact dedupAppend_eq_append _ _
      · exact ⟨[], by simp⟩
    rw [ht3]
    simp
  | nil =>
    have e1 : (([] : List (String × String)).length < 1) := by simp
    have e1b : (([] : List (String × String)).length < 10) := by simp
    rw [if_pos e1, if_pos e1b]
    cases hsub : dedupAppend [] (sbnSub r name) with
    | cons b bs =>
      have e2 : ¬ ((b :: bs).length < 1 ∧ name.length ≤ 4) := by simp
      rw [if_neg e2]
      obtain ⟨t3, ht3⟩ : ∃ t, (if (b :: bs).length < 10 ∧ name.length ≤ 4 then
          dedupAppend (b :: bs) (sbnPin r name) else b :: bs) = (b :: bs) ++ t := by
        split
        · exact dedupAppend_eq_append _ _
        · exact ⟨[], by simp⟩
      rw [ht3]
      simp
    | nil =>
      by_cases hlen : name.length ≤ 4
      · rw [if_pos ⟨by simp, hlen⟩, if_pos ⟨by simp, hlen⟩]
        cases hpin : dedupAppend [] (sbnPin r name) with
        | nil => simp
        | cons c cs => simp
      · rw [if_neg (fun hc => hlen hc.2), if_neg (fun hc => hlen hc.2)]
        simp

theorem search_head_agree (r : StockNameResolver) (name : String) :
    (search_by_name r name 1).head? = (search_by_name r name 10).head? := by
  unfold search_by_name
  dsimp only
  split
  · rfl
  · exact sbnPhases_head_agree r _

/-! ## Claim theorems -/

/-- Claim C1 (code evaluated at the failing input): with the as-of day not
in the limit pool, the previous day in the pool and the day before that
not in the pool, both streak implementations do NOT return 0 immediately:
their today-not-sealed fallback scans earlier days and returns the streak
1 ending at the previous day.  This contradicts the claim that a
non-sealed as-of day yields `streak_days = 0` with no backward scan. -/
theorem fallback_scan_counts_despite_unsealed_today :
    calculate_streak_days .notSealed [.sealed, .notSealed] = 1 ∧
    _get_streak_days .notSealed [.sealed, .notSealed] = 1 := by decide

/-- Claim C2, counterexample: a day whose only signal is broken-pool
membership (`is_in_broken_pool = true`) with no reseal is rated "F", not
"D-" — the D- rule keys on the intraday broken event flag
`has_open_limit`, not on pool membership. -/
theorem broken_pool_membership_alone_not_D_minus :
    (generate_rating false false false true false false false).rating = "F" ∧
    (generate_rating false false false true false false false).rating ≠ "D-" := by
  decide

/-- Claim C2 (amended): for every combination of the five remaining inputs
(including `is_one_word_limit`), `has_open_limit = true` with
`has_re_limit = false` yields grade D- with the broken-seal advisory, with
top precedence over every later rule including the one-word rules; but
broken-pool membership alone (with no broken change event) does not
trigger D- — with all other signals false it falls through to "F". -/
theorem broken_event_without_reseal_top_precedence :
    (∀ a c d e g : Bool, generate_rating a true c d e false g =
        ⟨"D-", "炸板后未重新封板，走势疲弱"⟩) ∧
    generate_rating false false false true false false false =
      ⟨"F", "无显著异动"⟩ := by decide

/-- Claim C3: `generate_rating` is a total deterministic pure function of
its boolean inputs: every input tuple matches exactly one rule of the
ordered precedence table `ratingRules` under first-match semantics, and
the function returns exactly that rule's verdict.  (The source function
takes seven booleans — the spec's six-signal `rate` merges
`has_open_limit`/`is_in_broken_pool` into one `is_broken` — so the
property is proved over all 2^7 tuples, which subsumes the claimed 2^6.) -/
theorem rate_total_deterministic_first_match :
    ∀ a b c d e f g : Bool, ∃ i : Fin ratingRules.length,
      (firstMatch ⟨a, b, c, d, e, f, g⟩ i ∧
        generate_rating a b c d e f g = (ratingRules.get i).2) ∧
      ∀ j : Fin ratingRules.length, firstMatch ⟨a, b, c, d, e, f, g⟩ j → j = i := by
  decide

/-- Claim C4, counterexample: the bar with open = high = close = 11 (the
session limit price, since the source's approximated limit price
`close / 1.1 * 1.1` equals the close) but low = 10 — i.e. the security
traded strictly below the cap intraday — is still classified 一字板
(OneWord), contradicting the claim that OneWord is returned only for bars
whose low also sits at the limit price. -/
theorem one_word_despite_intraday_dip :
    _get_limit_type ⟨11, 11, 10, 11, 10⟩ = "一字板" ∧
    (⟨11, 11, 10, 11, 10⟩ : DayRow).low_price <
      (⟨11, 11, 10, 11, 10⟩ : DayRow).close_price / (11/10) * (11/10) := by
  constructor
  · unfold _get_limit_type _is_limit_up
    norm_num
  · norm_num

/-- Claim C4 (amended): `_get_limit_type` classifies a bar as 一字板
(OneWord) exactly when the limit-up test passes and open is within 0.01 of
the high and of the approximated limit price `close / 1.1 * 1.1` (which
equals the close); in particular every limit-up bar with open, high, low,
close all at the limit price is OneWord, but the low — and any event
list — is never consulted, so a bar that dipped below the cap intraday
with open/high/close pinned at it is also OneWord. -/
theorem one_word_ignores_low (row : DayRow) :
    _get_limit_type row = "一字板" ↔
      (_is_limit_up row = true ∧ |row.open_price - row.high_price| < 1/100 ∧
        |row.open_price - row.close_price| < 1/100) := by
  unfold _get_limit_type
  have hcl : row.close_price / (11/10) * ((11:ℚ)/10) = row.close_price :=
    div_mul_cancel₀ _ (by norm_num)
  by_cases h : _is_limit_up row
  · simp only [h, Bool.not_true, Bool.false_eq_true, if_false, hcl]
    by_cases h2 : |row.open_price - row.high_price| < 1/100 ∧
        |row.open_price - row.close_price| < 1/100
    · rw [if_pos h2]
      exact iff_of_true rfl ⟨trivial, h2.1, h2.2⟩
    · rw [if_neg h2]
      constructor
      · intro hEq
        exfalso
        revert hEq
        split
        · exact fun hEq => absurd hEq (by decide)
        · exact fun hEq => absurd hEq (by decide)
      · intro hc
        exact absurd ⟨hc.2.1, hc.2.2⟩ h2
  · simp only [Bool.not_eq_true] at h
    simp only [h, Bool.not_false, if_true]
    constructor
    · intro hEq; exact absurd hEq (by decide)
    · intro hc; exact absurd hc.1 (by simp [h])

/-- Claim C5, counterexample: a day whose change events show a broken
seal (炸板 at 34200s) followed by a later reseal (涨停 at 36000s) is
recorded as resealed (`analyze_re_limit = true`), yet the bar classifier —
which never consults events — classifies the bar (open 10.5 below the cap
11, low 10.25, close 11) as 普通涨停, the very same class as an ordinary
never-broken limit-up bar: there is no distinct BrokenResealed
classification for the result to flip to. -/
theorem broken_resealed_day_classified_ordinary :
    analyze_re_limit [32400, 36000] [34200] false = true ∧
    _get_limit_type ⟨21/2, 11, 41/4, 11, 10⟩ = "普通涨停" ∧
    _get_limit_type ⟨21/2, 11, 21/2, 11, 10⟩ = "普通涨停" := by
  refine ⟨by decide, ?_, ?_⟩ <;>
    · unfold _get_limit_type _is_limit_up
      have h12 : |(1:ℚ)/2| = 1/2 := abs_of_nonneg (by norm_num)
      norm_num [h12]

/-- Claim C5 (amended): (1) a day with a broken event and no later reseal
time, not in the limit pool, gets `has_re_limit = false` and is rated D-
(the broken-unsealed verdict); (2) appending a reseal time later than the
last broken time flips `has_re_limit` to true; (3) the bar classifier —
independent of events — returns T字板 for a limit-up day sealed at open
(open within 0.01 of the high) whose low dipped below the open and whose
close moved at least 0.01 off the open; (4) a limit-up day not sealed at
open (open at least 0.01 off the high) is classified 普通涨停, with no
distinct broken-resealed class. -/
theorem broken_reseal_event_and_bar_classification :
    (∀ (lt ot : List Nat) (hbs pool strong ow : Bool), lt ≠ [] → ot ≠ [] →
        lastTime lt ≤ lastTime ot →
        analyze_re_limit lt ot false = false ∧
        generate_rating (!lt.isEmpty) (!ot.isEmpty) hbs pool strong
          (analyze_re_limit lt ot false) ow =
          ⟨"D-", "炸板后未重新封板，走势疲弱"⟩) ∧
    (∀ (lt ot : List Nat) (inPool : Bool) (t : Nat), ot ≠ [] →
        lastTime ot < t →
        analyze_re_limit (lt ++ [t]) ot inPool = true) ∧
    (∀ row : DayRow, _is_limit_up row = true →
        |row.open_price - row.high_price| < 1/100 →
        1/100 ≤ |row.open_price - row.close_price| →
        row.low_price < row.open_price →
        _get_limit_type row = "T字板") ∧
    (∀ row : DayRow, _is_limit_up row = true →
        1/100 ≤ |row.open_price - row.high_price| →
        _get_limit_type row = "普通涨停") := by
  refine ⟨?_, ?_, ?_, ?_⟩
  · intro lt ot hbs pool strong ow hlt hot hle
    have hre : analyze_re_limit lt ot false = false := by
      unfold analyze_re_limit
      rw [if_neg (by simp [List.isEmpty_iff, hlt]),
          if_neg (by simp [List.isEmpty_iff, hot]),
          if_neg (by omega)]
    refine ⟨hre, ?_⟩
    have hote : ot.isEmpty = false := by simp [List.isEmpty_iff, hot]
    rw [hre, hote]
    unfold generate_rating
    rw [if_pos (by simp)]
  · intro lt ot inPool t hot hlt
    unfold analyze_re_limit
    have hlast : lastTime (lt ++ [t]) = t := by
      unfold lastTime
      rw [List.getLast?_concat]
      rfl
    rw [if_neg (by simp), if_neg (by simp [List.isEmpty_iff, hot]),
        if_pos (by omega)]
  · intro row hlim hoh hoc hlow
    unfold _get_limit_type
    have hcl : row.close_price / (11/10) * ((11:ℚ)/10) = row.close_price :=
      div_mul_cancel₀ _ (by norm_num)
    rw [hlim]
    simp only [Bool.not_true, Bool.false_eq_true, if_false, hcl]
    rw [if_neg (by intro hc; linarith [hc.2]), if_pos ⟨hoh, hlow⟩]
  · intro row hlim hoh
    unfold _get_limit_type
    rw [hlim]
    simp only [Bool.not_true, Bool.false_eq_true, if_false]
    rw [if_neg (by intro hc; linarith [hc.1]),
        if_neg (by intro hc; linarith [hc.1])]

/-- Witness for `broken_reseal_event_and_bar_classification` at concrete
inputs: one broken time 35000 after a single seal at 34200 with no reseal
(rating D-), a reseal appended at 36000 (resealed), a sealed-at-open
dipping bar (T字板), and a below-cap open (普通涨停). -/
theorem broken_reseal_classification_witness :
    (lastTime [34200] ≤ lastTime [35000] ∧
      analyze_re_limit [34200] [35000] false = false ∧
      generate_rating (!(List.isEmpty [34200])) (!(List.isEmpty [35000]))
        false false false (analyze_re_limit [34200] [35000] false) false =
        ⟨"D-", "炸板后未重新封板，走势疲弱"⟩) ∧
    analyze_re_limit ([34200] ++ [36000]) [35000] false = true ∧
    _get_limit_type ⟨11, 11, 21/2, 109/10, 10⟩ = "T字板" ∧
    _get_limit_type ⟨21/2, 11, 21/2, 11, 10⟩ = "普通涨停" := by
  refine ⟨⟨by decide, ?_⟩, ?_, ?_, ?_⟩
  · exact (broken_reseal_event_and_bar_classification.1 [34200] [35000]
      false false false false (by decide) (by decide) (by decide))
  · exact broken_reseal_event_and_bar_classification.2.1 [34200] [35000]
      false 36000 (by decide) (by decide)
  · exact broken_reseal_event_and_bar_classification.2.2.1
      ⟨11, 11, 21/2, 109/10, 10⟩ (by unfold _is_limit_up; norm_num)
      (by norm_num)
      (le_trans (show (1:ℚ)/100 ≤ 11 - 109/10 by norm_num) (le_abs_self _))
      (by norm_num)
  · exact broken_reseal_event_and_bar_classification.2.2.2
      ⟨21/2, 11, 21/2, 11, 10⟩ (by unfold _is_limit_up; norm_num)
      (by rw [abs_sub_comm]
          exact le_trans (show (1:ℚ)/100 ≤ 11 - 21/2 by norm_num) (le_abs_self _))

/-- Claim C6: for a history whose as-of day is sealed and whose scanned
window contains no confirmed unsealed trading day, with every unknown run
within the abort threshold 5 and the window inside the 30-day lookback,
both streak computations return 1 plus the number of sealed past days, and
the result is unchanged by inserting (equivalently, removing) a
non-trading / no-data day anywhere in the window. -/
theorem streak_gap_tolerant (l₁ l₂ : List DayStatus)
    (hns : DayStatus.notSealed ∉ l₁ ++ l₂)
    (hlen : (l₁ ++ l₂).length + 1 ≤ 29)
    (hok : unknownRunsOk (l₁ ++ l₂) 0 = true)
    (hok2 : unknownRunsOk (l₁ ++ DayStatus.noData :: l₂) 0 = true) :
    (_get_streak_days .sealed (l₁ ++ l₂) = 1 + (l₁ ++ l₂).count .sealed ∧
      _get_streak_days .sealed (l₁ ++ .noData :: l₂) =
        _get_streak_days .sealed (l₁ ++ l₂)) ∧
    (calculate_streak_days .sealed (l₁ ++ l₂) = 1 + (l₁ ++ l₂).count .sealed ∧
      calculate_streak_days .sealed (l₁ ++ .noData :: l₂) =
        calculate_streak_days .sealed (l₁ ++ l₂)) := by
  have hns2 : DayStatus.notSealed ∉ l₁ ++ DayStatus.noData :: l₂ := by
    simp only [List.mem_append, List.mem_cons, not_or] at hns ⊢
    exact ⟨hns.1, by simp, hns.2⟩
  have hlen2 : (l₁ ++ DayStatus.noData :: l₂).length ≤ 29 := by
    simp only [List.length_append, List.length_cons] at hlen ⊢
    omega
  have hcnt : (l₁ ++ DayStatus.noData :: l₂).count DayStatus.sealed =
      (l₁ ++ l₂).count DayStatus.sealed := by
    simp [List.count_append, List.count_cons]
  unfold _get_streak_days calculate_streak_days
  rw [if_pos rfl, if_pos rfl, if_pos rfl, if_pos rfl]
  rw [List.take_of_length_le (by omega), List.take_of_length_le hlen2]
  rw [monitorBackScan_count _ _ _ hok hns, monitorBackScan_count _ _ _ hok2 hns2]
  rw [calcBackScan_count _ _ hns, calcBackScan_count _ _ hns2]
  rw [hcnt]
  exact ⟨⟨by omega, by omega⟩, by omega, by omega⟩

/-- Witness for `streak_gap_tolerant`: as-of day sealed, past days
sealed/sealed/noData, a gap day inserted after the first past day. -/
theorem streak_gap_tolerant_witness :
    (DayStatus.notSealed ∉ [DayStatus.sealed] ++ [DayStatus.sealed, DayStatus.noData] ∧
      unknownRunsOk ([DayStatus.sealed] ++ [DayStatus.sealed, DayStatus.noData]) 0 = true) ∧
    _get_streak_days .sealed ([DayStatus.sealed] ++ [DayStatus.sealed, DayStatus.noData]) =
      1 + ([DayStatus.sealed] ++ [DayStatus.sealed, DayStatus.noData]).count .sealed ∧
    _get_streak_days .sealed
        ([DayStatus.sealed] ++ DayStatus.noData :: [DayStatus.sealed, DayStatus.noData]) =
      _get_streak_days .sealed ([DayStatus.sealed] ++ [DayStatus.sealed, DayStatus.noData]) :=
  ⟨⟨by decide, by decide⟩,
    (streak_gap_tolerant [DayStatus.sealed] [DayStatus.sealed, DayStatus.noData]
      (by decide) (by decide) (by decide) (by decide)).1.1,
    (streak_gap_tolerant [DayStatus.sealed] [DayStatus.sealed, DayStatus.noData]
      (by decide) (by decide) (by decide) (by decide)).1.2⟩

/-- Claim C7, counterexample: on a history of six consecutive unknown days
followed by a sealed day (as-of day sealed), `calculate_streak_days` keeps
scanning past the 6th consecutive unknown day and counts the sealed day
behind the gap (result 2), refuting the claim that the streak computation
stops as soon as the count of consecutive unknown days exceeds 5;
`_get_streak_days` does stop there (result 1). -/
theorem calc_scan_ignores_unknown_threshold :
    calculate_streak_days .sealed (List.replicate 6 .noData ++ [.sealed]) = 2 ∧
    _get_streak_days .sealed (List.replicate 6 .noData ++ [.sealed]) = 1 := by
  decide

/-- Claim C7 (amended): both backward scans are total functions whose
result depends only on the 29 days before the query date (the loop bound
`max_days_to_check = 30`); `_get_streak_days` stops its today-sealed scan
once six consecutive unknown days occur, regardless of what lies behind
them; and both results are bounded by 30.  (`calculate_streak_days` has no
consecutive-unknown bound, and neither function returns a truncation flag
— the result is a bare integer.) -/
theorem streak_scan_bounded :
    (∀ (today : DayStatus) (p q : List DayStatus), p.take 29 = q.take 29 →
        _get_streak_days today p = _get_streak_days today q ∧
        calculate_streak_days today p = calculate_streak_days today q) ∧
    (∀ rest : List DayStatus,
        _get_streak_days .sealed (List.replicate 6 .noData ++ rest) = 1) ∧
    (∀ (today : DayStatus) (p : List DayStatus),
        _get_streak_days today p ≤ 30 ∧ calculate_streak_days today p ≤ 30) := by
  refine ⟨?_, ?_, ?_⟩
  · intro today p q hpq
    unfold _get_streak_days calculate_streak_days
    have h30 : (today :: p).take 30 = today :: p.take 29 := List.take_succ_cons
    have h30q : (today :: q).take 30 = today :: q.take 29 := List.take_succ_cons
    rw [h30, h30q, hpq]
    exact ⟨rfl, rfl⟩
  · intro rest
    unfold _get_streak_days
    rw [if_pos rfl]
    rw [List.take_append_eq_append_take]
    rw [List.take_of_length_le (by simp)]
    exact monitorBackScan_six_unknown _ _
  · intro today p
    unfold _get_streak_days calculate_streak_days
    constructor
    · split
      · calc monitorBackScan (p.take 29) 1 0 ≤ 1 + (p.take 29).length :=
            monitorBackScan_le _ _ _
          _ ≤ 1 + 29 := by have := p.length_take_le 29; omega
          _ ≤ 30 := by omega
      · calc fallbackFindScan ((today :: p).take 30) ≤
            ((today :: p).take 30).length := fallbackFindScan_le _
          _ ≤ 30 := (today :: p).length_take_le 30
    · split
      · calc calcBackScan (p.take 29) 1 ≤ 1 + (p.take 29).length :=
            calcBackScan_le _ _
          _ ≤ 1 + 29 := by have := p.length_take_le 29; omega
          _ ≤ 30 := by omega
      · calc fallbackFindScan ((today :: p).take 30) ≤
            ((today :: p).take 30).length := fallbackFindScan_le _
          _ ≤ 30 := (today :: p).length_take_le 30

/-- Witness for `streak_scan_bounded`: two histories agreeing on their
first 29 days (one has a 30th day, which the scan never examines) get the
same streak. -/
theorem streak_scan_bounded_witness :
    (List.replicate 29 DayStatus.sealed ++ [DayStatus.notSealed]).take 29 =
      (List.replicate 29 DayStatus.sealed).take 29 ∧
    _get_streak_days .sealed (List.replicate 29 DayStatus.sealed ++ [DayStatus.notSealed]) =
      _get_streak_days .sealed (List.replicate 29 DayStatus.sealed) :=
  ⟨by decide,
    (streak_scan_bounded.1 .sealed
      (List.replicate 29 DayStatus.sealed ++ [DayStatus.notSealed])
      (List.replicate 29 DayStatus.sealed) (by decide)).1⟩

/-- Claim C8, counterexample: on a resolver holding 平安银行 (000001) and
中国平安 (601318), the query 平安 has two candidates, yet `get_stock_code`
— the resolution used by `calculate_streak_days` via
`get_stock_code_by_name` — silently returns the first code instead of
surfacing the ambiguity. -/
theorem resolver_two_candidates_silent_pick :
    (search_by_name pingAnResolver "平安" 10).length = 2 ∧
    get_stock_code pingAnResolver "平安" = some "000001" := by decide

/-- Claim C8 (amended): whenever the full search finds at least one
candidate (several or not), `get_stock_code` — the entry point the streak
pipeline uses — returns exactly the first candidate's code; ambiguity is
never surfaced through this path (only the interactive UI path
disambiguates). -/
theorem get_stock_code_returns_first_candidate (r : StockNameResolver)
    (name : String) (h : search_by_name r name 10 ≠ []) :
    ∃ c n rest, search_by_name r name 10 = (c, n) :: rest ∧
      get_stock_code r name = some c := by
  cases hL : search_by_name r name 10 with
  | nil => exact absurd hL h
  | cons p rest =>
    obtain ⟨c, n⟩ := p
    refine ⟨c, n, rest, rfl, ?_⟩
    have hhead := search_head_agree r name
    rw [hL] at hhead
    unfold get_stock_code
    cases h1 : search_by_name r name 1 with
    | nil => rw [h1] at hhead; simp at hhead
    | cons q qrest =>
      rw [h1] at hhead
      simp only [List.head?_cons, Option.some.injEq] at hhead
      rw [hhead]

/-- Witness for `get_stock_code_returns_first_candidate` on the concrete
two-candidate resolver state. -/
theorem get_stock_code_first_candidate_witness :
    search_by_name pingAnResolver "平安" 10 ≠ [] ∧
    ∃ c n rest, search_by_name pingAnResolver "平安" 10 = (c, n) :: rest ∧
      get_stock_code pingAnResolver "平安" = some c :=
  ⟨by decide, get_stock_code_returns_first_candidate pingAnResolver "平安" (by decide)⟩

/-- Claim C9, counterexample: the inputs (limit-up with a big sell) and
(limit-up in the broken pool) are both rated B-, yet
`generate_investment_advice` returns different advisory strings for them —
the advice chain's conditions diverge from the rating chain's, so the
advisory is not a function of the grade alone. -/
theorem same_grade_different_advice :
    (generate_rating true false true false false false false).rating = "B-" ∧
    (generate_rating true false false true false false false).rating = "B-" ∧
    generate_investment_advice true false true false false false false ≠
      generate_investment_advice true false false true false false false := by
  decide

/-- Claim C9 (amended): the advisory is produced by a parallel decision
chain over the same six/seven inputs, not derived from the grade; for
every pair of inputs that share a grade other than A+, B and B- the
advisory string coincides, but grades A+ (reachable from both the one-word
rule and the strong-pool rule), B and B- (where the advice chain's
A-level branch omits the no-big-sell test) admit inputs with the same
grade and different advisories. -/
theorem advice_determined_by_grade_outside_divergent :
    ∀ a b c d e f g a2 b2 c2 d2 e2 f2 g2 : Bool,
      (generate_rating a b c d e f g).rating =
        (generate_rating a2 b2 c2 d2 e2 f2 g2).rating →
      (generate_rating a b c d e f g).rating ∉ (["A+", "B", "B-"] : List String) →
      generate_investment_advice a b c d e f g =
        generate_investment_advice a2 b2 c2 d2 e2 f2 g2 := by decide

/-- Witness for `advice_determined_by_grade_outside_divergent`: two
distinct inputs rated A get the same advisory. -/
theorem advice_grade_witness :
    ((generate_rating true false false false false false false).rating =
        (generate_rating true false false false false true false).rating ∧
      (generate_rating true false false false false false false).rating ∉
        (["A+", "B", "B-"] : List String)) ∧
    generate_investment_advice true false false false false false false =
      generate_investment_advice true false false false false true false :=
  ⟨⟨by decide, by decide⟩,
    advice_determined_by_grade_outside_divergent true false false false false
      false false true false false false false true false (by decide) (by decide)⟩

/-- Claim C10: the two duplicated rating chains are equivalent — for every
combination of the six boolean inputs, `generate_rating` with
`is_one_word_limit = false` returns exactly the same grade and description
as `_generate_rating`. -/
theorem rating_chains_equivalent :
    ∀ a b c d e f : Bool,
      generate_rating a b c d e f false = _generate_rating a b c d e f := by
  decide
